import Mathlib

/-!
Verification of the wrdrv wireless toolkit core against its specification.

The definitions below are a shallow embedding of the Python sources:
* `core/wireless_monitor.py` — the `iw` scan-output parser, the access-point
  registry merge, and the ranked-results presenter;
* `core/interface_management.py` — the interface link-state and mode controls;
* `core/conflict_resolver.py` — the conflict detection/termination/restore logic.

Python string primitives (`str.strip`, `str.split`, `in`, slicing) are
implemented structurally over `List Char` so that every definition is
executable and kernel-reducible.  External commands (subprocess invocations,
psutil process iteration, signal delivery) are modelled by explicit environment
records mapping command lines or process ids to their observable results, and
each operation additionally returns the trace of external actions it
performed, so that frame conditions ("never invokes a stop") are provable.

Python dict aliasing inside the parser is modelled exactly: the parser keeps
the open record together with the number of times the very same dict object
has already been appended to the output list (`copies`), materialising the
shared final value only when the object can no longer be mutated.
-/

/-! ### Python string primitives, over code-point lists -/

/-- Python `str.strip()` with no argument: remove leading and trailing
whitespace. -/
def pyStrip (cs : List Char) : List Char :=
  ((cs.dropWhile Char.isWhitespace).reverse.dropWhile Char.isWhitespace).reverse

/-- Helper for `pySplitWs`: accumulate the current word (reversed). -/
def pySplitWsAux : List Char → List Char → List (List Char)
  | [], acc => if acc.isEmpty then [] else [acc.reverse]
  | c :: cs, acc =>
    if c.isWhitespace then
      if acc.isEmpty then pySplitWsAux cs [] else acc.reverse :: pySplitWsAux cs []
    else pySplitWsAux cs (c :: acc)

/-- Python `str.split()` with no argument: split on whitespace runs, dropping
empty pieces. -/
def pySplitWs (cs : List Char) : List (List Char) :=
  pySplitWsAux cs []

/-- Helper for `splitCh`: accumulate the current piece (reversed). -/
def splitChAux (sep : Char) : List Char → List Char → List (List Char)
  | [], acc => [acc.reverse]
  | c :: cs, acc =>
    if c = sep then acc.reverse :: splitChAux sep cs []
    else splitChAux sep cs (c :: acc)

/-- Python `str.split(sep)` for a one-character separator: empty pieces are
kept, and at least one piece is always returned. -/
def splitCh (sep : Char) (cs : List Char) : List (List Char) :=
  splitChAux sep cs []

/-- List-of-code-points prefix test. -/
def isPreOf : List Char → List Char → Bool
  | [], _ => true
  | _ :: _, [] => false
  | p :: ps, c :: cs => p = c && isPreOf ps cs

/-- Python substring test `pat in s`. -/
def hasSub (pat : List Char) : List Char → Bool
  | [] => isPreOf pat []
  | c :: cs => isPreOf pat (c :: cs) || hasSub pat cs

/-- Digits of a decimal numeral to a natural number. -/
def digitsToNat (ds : List Char) : Nat :=
  ds.foldl (fun n c => n * 10 + (c.toNat - 48)) 0

/-! ### Scan output parser (`WirelessMonitor._parse_iw_output`) -/

/-- One parsed access point, mirroring the dict literal built at the `BSS`
branch of `_parse_iw_output` (keys `BSSID`, `ESSID`, `Freq`, `Channel`,
`Signal_dBm`, `WPA`, `WPA2`, `WEP`, `TKIP`, `CCMP`, `WPS`).  Python's float
signal is modelled as a rational. -/
structure Network where
  bssid : String
  essid : String
  freq : Nat
  channel : Nat
  signalDbm : Rat
  wpa : Bool
  wpa2 : Bool
  wep : Bool
  tkip : Bool
  ccmp : Bool
  wps : Bool
deriving Repr, DecidableEq

/-- The record defaults installed when a valid `BSS` line opens a record,
with the address upper-cased as in `mac_candidate.upper()`. -/
def newNetwork (mac : List Char) : Network :=
  { bssid := String.mk (mac.map Char.toUpper)
    essid := "<Hidden>"
    freq := 0
    channel := 0
    signalDbm := -100
    wpa := false
    wpa2 := false
    wep := false
    tkip := false
    ccmp := false
    wps := false }

/-- Hexadecimal digit as accepted by the `[0-9A-Fa-f]` character class. -/
def hexDigit (c : Char) : Bool :=
  c.isDigit || (('a' ≤ c) && (c ≤ 'f')) || (('A' ≤ c) && (c ≤ 'F'))

/-- Separator accepted by the `[:-]` character class of `RE_BSS_MAC`. -/
def macSep (c : Char) : Bool :=
  c == ':' || c == '-'

/-- Full-string match of `RE_BSS_MAC`, the pattern
`^([0-9A-Fa-f]\x7b2\x7d[:-])\x7b5\x7d([0-9A-Fa-f]\x7b2\x7d)$`:
six groups of two hex digits separated by `:` or `-`. -/
def macMatch : List Char → Bool
  | [a, b, s1, c, d, s2, e, f, s3, g, h, s4, i, j, s5, k, l] =>
    hexDigit a && hexDigit b && macSep s1 &&
    hexDigit c && hexDigit d && macSep s2 &&
    hexDigit e && hexDigit f && macSep s3 &&
    hexDigit g && hexDigit h && macSep s4 &&
    hexDigit i && hexDigit j && macSep s5 &&
    hexDigit k && hexDigit l
  | _ => false

/-- Leading run of digits of `cs` as a number, when non-empty; models the
`(\d+)` group of the channel regexes matched right after their literal text. -/
def leadingNat (cs : List Char) : Option Nat :=
  let ds := cs.takeWhile Char.isDigit
  if ds.isEmpty then none else some (digitsToNat ds)

/-- Model of Python `float(token)` on the decimal forms that occur in scan
output: optional sign, then `digits`, `digits.digits`, `digits.` or `.digits`.
Exponent, infinity and nan spellings are not modelled; like every other
unparsable token they map to `none` (Python: `ValueError`, caught by the
caller). -/
def parseFloatQ (cs : List Char) : Option Rat :=
  let (sgn, body) :=
    match cs with
    | '-' :: rest => ((-1 : Int), rest)
    | '+' :: rest => ((1 : Int), rest)
    | rest => ((1 : Int), rest)
  match splitCh '.' body with
  | [ipart] =>
    if ipart.isEmpty || ¬ (ipart.all Char.isDigit) then none
    else some (mkRat (sgn * (digitsToNat ipart : Int)) 1)
  | [ipart, fpart] =>
    if ipart.isEmpty && fpart.isEmpty then none
    else if (ipart.all Char.isDigit) && (fpart.all Char.isDigit) then
      some (mkRat
        (sgn * ((digitsToNat ipart : Int) * ((10 ^ fpart.length : Nat) : Int) +
          (digitsToNat fpart : Int)))
        (10 ^ fpart.length))
    else none
  | _ => none

def ssidTok : List Char := "SSID:".data

def bssTok : List Char := "BSS".data

def signalTok : List Char := "signal:".data

def wpaTok : List Char := "WPA:".data

def rsnTok : List Char := "RSN:".data

def capabilityTok : List Char := "capability:".data

def dsChanPat : List Char := "DS Parameter set: channel".data

def dsChanHead : List Char := "DS Parameter set: channel ".data

def primChanPat : List Char := "primary channel:".data

def primChanHead : List Char := "* primary channel: ".data

def privacyPat : List Char := "Privacy".data

def wpsPat : List Char := "WPS:".data

def ccmpPat : List Char := "CCMP".data

def tkipPat : List Char := "TKIP".data

/-- Match of `RE_DS_CHANNEL` = `^\s*DS Parameter set: channel (\d+)` against an
already-stripped line. -/
def dsChannelMatch (line : List Char) : Option Nat :=
  if isPreOf dsChanHead line then leadingNat (line.drop dsChanHead.length)
  else none

/-- Match of `RE_PRIMARY_CHANNEL` = `^\s*\* primary channel: (\d+)` against an
already-stripped line. -/
def primChannelMatch (line : List Char) : Option Nat :=
  if isPreOf primChanHead line then leadingNat (line.drop primChanHead.length)
  else none

/-- The field-update `elif` chain of `_parse_iw_output` applied to the open
record, followed by the two independent `CCMP`/`TKIP` substring checks. -/
def updateFields (net : Network) (line : List Char) (tokens : List (List Char)) : Network :=
  let token := tokens.headD []
  let net1 :=
    if token = ssidTok then
      let ssidVal := pyStrip (line.drop 5)
      if ssidVal.isEmpty then net else { net with essid := String.mk ssidVal }
    else if hasSub dsChanPat line then
      match dsChannelMatch line with
      | some n => { net with channel := n }
      | none => net
    else if hasSub primChanPat line then
      match primChannelMatch line with
      | some n => { net with channel := n }
      | none => net
    else if token = signalTok then
      match tokens with
      | _ :: t1 :: _ =>
        match parseFloatQ t1 with
        | some v => { net with signalDbm := v }
        | none => net
      | _ => net
    else if token = wpaTok then { net with wpa := true }
    else if token = rsnTok then { net with wpa2 := true }
    else if token = capabilityTok then
      if hasSub privacyPat line then { net with wep := true } else net
    else if hasSub wpsPat line then { net with wps := true }
    else net
  let net2 := if hasSub ccmpPat line then { net1 with ccmp := true } else net1
  if hasSub tkipPat line then { net2 with tkip := true } else net2

/-- Parser state.  `finished` are records whose dict object can no longer be
reached from `current_net`; `current` is the open record (the dict
`current_net` points to) and `copies` is the number of times that very dict
object already sits in the Python `networks` list — after a malformed `BSS`
line the open dict is appended without `current_net` being rebound, so the
list and `current_net` alias the same object. -/
structure ParseState where
  finished : List Network
  copies : Nat
  current : Option Network
deriving Repr, DecidableEq

def initParseState : ParseState := ⟨[], 0, none⟩

def indexErrMsg : String := "IndexError: list index out of range"

/-- One iteration of the parser loop on a raw line.  The `Except.error` branch
models the uncaught `IndexError` raised by `tokens[1]` when a `BSS` line has no
second token. -/
def processLine (st : ParseState) (rawLine : List Char) : Except String ParseState :=
  let line := pyStrip rawLine
  if line.isEmpty then Except.ok st
  else
    match pySplitWs line with
    | [] => Except.ok st
    | token :: rest =>
      if token = bssTok then
        let copies1 := if st.current.isSome then st.copies + 1 else st.copies
        match rest with
        | [] => Except.error indexErrMsg
        | t1 :: _ =>
          let macCandidate := (splitCh '(' t1).headD []
          if macMatch macCandidate then
            let flushed :=
              match st.current with
              | some c => st.finished ++ List.replicate copies1 c
              | none => st.finished
            Except.ok ⟨flushed, 0, some (newNetwork macCandidate)⟩
          else
            Except.ok { st with copies := copies1 }
      else
        match st.current with
        | none => Except.ok st
        | some c => Except.ok { st with current := some (updateFields c line (token :: rest)) }

/-- The whole of `_parse_iw_output`: split the raw text into lines, fold the
loop body over them, and append the still-open record (together with all its
aliased copies) at the end.  `Except.error` marks an uncaught Python
exception. -/
def parse_iw_output (raw : String) : Except String (List Network) :=
  let lines := splitCh '\n' raw.data
  match lines.foldlM processLine initParseState with
  | Except.error e => Except.error e
  | Except.ok st =>
    match st.current with
    | some c => Except.ok (st.finished ++ List.replicate (st.copies + 1) c)
    | none => Except.ok st.finished

/-! ### Access point registry (`WirelessMonitor.perform_scan` merge) -/

/-- The `self.networks` dict: an insertion-ordered association list from BSSID
to record, mirroring Python dict semantics. -/
abbrev Registry := List (String × Network)

/-- Python `dict[key] = value`: replace in place when the key is present
(keeping its position), append otherwise. -/
def dictInsert (reg : Registry) (key : String) (v : Network) : Registry :=
  if reg.any (fun p => p.1 == key) then
    reg.map (fun p => if p.1 == key then (key, v) else p)
  else reg ++ [(key, v)]

def registryValues (reg : Registry) : List Network :=
  reg.map Prod.snd

def registryKeys (reg : Registry) : List String :=
  reg.map Prod.fst

def registryLookup (reg : Registry) (k : String) : Option Network :=
  (reg.find? (fun p => p.1 == k)).map Prod.snd

/-- The merge loop of `perform_scan`:
`for net in scanned_networks: self.networks[net['BSSID']] = net`. -/
def mergeScan (reg : Registry) (nets : List Network) : Registry :=
  nets.foldl (fun r n => dictInsert r n.bssid n) reg

/-- Last record of a scan carrying a given BSSID (the one whose write wins). -/
def lastRecord : List Network → String → Option Network
  | [], _ => none
  | n :: rest, b =>
    match lastRecord rest b with
    | some r => some r
    | none => if n.bssid = b then some n else none

/-! ### Ranker / presenter (`WirelessMonitor.get_results`) -/

/-- Insertion step of a stable descending sort on `Signal_dBm`: walk past
strictly stronger entries, settling before the first entry not stronger, so
ties keep their original relative order (CPython `list.sort` with a key and
`reverse=True` is stable in exactly this sense). -/
def sortInsert (x : Network) : List Network → List Network
  | [] => [x]
  | y :: ys => if x.signalDbm < y.signalDbm then y :: sortInsert x ys else x :: y :: ys

/-- Stable sort by `Signal_dBm` descending, the effect of
`networks_list.sort(key=lambda x: x['Signal_dBm'], reverse=True)`. -/
def sortSignalDesc : List Network → List Network
  | [] => []
  | x :: xs => sortInsert x (sortSignalDesc xs)

/-- The dict comprehension `{(i + 1): net for i, net in enumerate(...)}` as an
insertion-ordered association list with 1-based indices. -/
def enumerateFrom (i : Nat) : List Network → List (Nat × Network)
  | [] => []
  | x :: xs => (i, x) :: enumerateFrom (i + 1) xs

/-- `get_results(reverse_scan)`: first component is the returned
`indexed_results` mapping, second is the row order actually printed (the
`items` list, reversed when `reverse_scan` is set).  An empty registry returns
early with an empty mapping and prints nothing. -/
def get_results (reg : Registry) (reverseScan : Bool) :
    List (Nat × Network) × List (Nat × Network) :=
  let networksList := registryValues reg
  if networksList.isEmpty then ([], [])
  else
    let sorted := sortSignalDesc networksList
    let indexed := enumerateFrom 1 sorted
    let items := if reverseScan then indexed.reverse else indexed
    (indexed, items)

/-! ### Interface management (`core/interface_management.py`) -/

/-- Observable result of one external command, as `subprocess.run` reports it
when invoked with `capture_output=True` and without `check=True`. -/
structure CmdResult where
  returncode : Int
  stdout : String
  stderr : String

/-- The ambient system: what each command line would report. -/
abbrev CmdEnv := List String → CmdResult

inductive InterfaceAction where
  | up
  | down
deriving Repr, DecidableEq

/-- String payload of the `InterfaceAction` str-enum. -/
def InterfaceAction.toArg : InterfaceAction → String
  | .up => "up"
  | .down => "down"

inductive InterfaceMode where
  | monitor
  | managed
deriving Repr, DecidableEq

/-- String payload of the `InterfaceMode` str-enum. -/
def InterfaceMode.toArg : InterfaceMode → String
  | .monitor => "monitor"
  | .managed => "managed"

namespace InterfaceManagement

/-- `_set_interface_state`: run `ip link set <interface> <action>` with
`capture_output=True` and no `check=True`; the `CompletedProcess` is discarded
and nothing is raised, so the pair returned is always success plus the
single-command trace. -/
def set_interface_state (env : CmdEnv) (interface : String) (action : InterfaceAction) :
    Except String Unit × List (List String) :=
  let cmd := ["ip", "link", "set", interface, action.toArg]
  let _res := env cmd
  (Except.ok (), [cmd])

/-- `_set_interface_mode`: run `iw <interface> set type <mode>` with
`capture_output=True` and no `check=True`; the result is discarded and nothing
is raised. -/
def set_interface_mode (env : CmdEnv) (interface : String) (mode : InterfaceMode) :
    Except String Unit × List (List String) :=
  let cmd := ["iw", interface, "set", "type", mode.toArg]
  let _res := env cmd
  (Except.ok (), [cmd])

/-- `down()`. -/
def down (env : CmdEnv) (interface : String) : Except String Unit × List (List String) :=
  set_interface_state env interface InterfaceAction.down

/-- `up()`. -/
def up (env : CmdEnv) (interface : String) : Except String Unit × List (List String) :=
  set_interface_state env interface InterfaceAction.up

/-- `monitor()`. -/
def monitor (env : CmdEnv) (interface : String) : Except String Unit × List (List String) :=
  set_interface_mode env interface InterfaceMode.monitor

/-- `managed()`. -/
def managed (env : CmdEnv) (interface : String) : Except String Unit × List (List String) :=
  set_interface_mode env interface InterfaceMode.managed

end InterfaceManagement

/-- Does the run's outcome model a raised error whose text carries `diag`? -/
def isErrorCarrying (res : Except String Unit) (diag : String) : Bool :=
  match res with
  | Except.error msg => hasSub diag.data msg.data
  | Except.ok _ => false

/-- Modelled from the spec (claim side, for refutation): the mode-switch claim
demands that a mode-switch invocation executes the down→delete→recreate→up
protocol — in particular that some issued command deletes the virtual
interface — and that whenever an issued delete/recreate command fails, the
operation surfaces an error carrying that command's stderr.  Evaluated against
the trace the code actually produces. -/
def claimModeSwitchProtocol (env : CmdEnv) (interface : String) (mode : InterfaceMode) : Bool :=
  let (res, trace) := InterfaceManagement.set_interface_mode env interface mode
  (trace.any (fun cmd => cmd.contains ("del"))) &&
  ((trace.filter (fun cmd => cmd.contains ("del"))).all
    (fun cmd => (env cmd).returncode == 0 || isErrorCarrying res (env cmd).stderr))

/-- Modelled from the spec (claim side, for refutation): the link-state claim
demands that a failing `up` command is surfaced to the caller rather than
silently swallowed. -/
def claimUpFailureSurfaced (env : CmdEnv) (interface : String) : Bool :=
  let (res, _trace) := InterfaceManagement.up env interface
  (env ["ip", "link", "set", interface, "up"]).returncode == 0 ||
    !(match res with
      | Except.ok _ => true
      | Except.error _ => false)

/-- An environment in which every external command fails with diagnostic text
on stderr. -/
def failingEnv : CmdEnv :=
  fun _ => { returncode := 1, stdout := "", stderr := "boom" }

/-! ### Conflict resolver (`core/conflict_resolver.py`) -/

/-- One live OS process as psutil exposes it to `_check_processes`. -/
structure ProcEntry where
  pid : Nat
  name : String
deriving Repr, DecidableEq

/-- What `psutil.Process.send_signal` does for a given target: delivered,
`NoSuchProcess` (already exited), or `AccessDenied` (insufficient
privilege). -/
inductive KillOutcome where
  | ok
  | noSuchProcess
  | accessDenied
deriving Repr, DecidableEq

/-- The ambient system as the conflict resolver observes it. -/
structure SysState where
  statusRc : String → Int
  stopRc : String → Int
  procs : List ProcEntry
  killOutcome : Nat → KillOutcome
  isEnabledRc : String → Int
  restartRc : String → Int

/-- External side effects, recorded so that non-invocation is provable. -/
inductive SysAction where
  | statusQuery (service : String)
  | stopService (service : String)
  | sigSend (pid : Nat)
  | isEnabledQuery (service : String)
  | restartService (service : String)
deriving Repr, DecidableEq

/-- `ConflictResolver.SERVICES`.  The Python source holds these five names in a
set, whose iteration order is unspecified; no claim below depends on the
enumeration order chosen here. -/
def SERVICES : List String :=
  ["wicd", "network-manager", "avahi-daemon", "NetworkManager", "wpa_supplicant"]

/-- `ConflictResolver.PROCESSES` (a Python set; order irrelevant as above). -/
def PROCESSES : List String :=
  ["wpa_action", "wpa_supplicant", "wpa_cli", "dhclient", "ifplugd", "dhcdbd",
   "dhcpcd", "udhcpc", "NetworkManager", "knetworkmanager", "avahi-autoipd",
   "avahi-daemon", "wlassistant", "wifibox", "net_applet", "wicd-daemon",
   "wicd-client", "iwd", "hostapd"]

/-- The advisory text printed by `_kill_processes` on `AccessDenied`. -/
def deniedMsg : String := "Unable to kill process, are you root?"

/-- `_stop_service`: run `systemctl stop <service>` and report the outcome as a
printed message; never raises. -/
def stop_service (st : SysState) (service : String) : List SysAction × List String :=
  if st.stopRc service = 0 then
    ([SysAction.stopService service], ["Service " ++ service ++ " stopped successfully."])
  else
    ([SysAction.stopService service],
     ["Service " ++ service ++ " stopped unsuccessfully. Status: " ++ toString (st.stopRc service)])

/-- `_kill_processes`: send SIGTERM; `NoSuchProcess` is swallowed silently,
`AccessDenied` is reported as a message; neither aborts the caller. -/
def kill_processes (st : SysState) (p : ProcEntry) : List SysAction × List String :=
  match st.killOutcome p.pid with
  | KillOutcome.ok => ([SysAction.sigSend p.pid], [])
  | KillOutcome.noSuchProcess => ([SysAction.sigSend p.pid], [])
  | KillOutcome.accessDenied => ([SysAction.sigSend p.pid], [deniedMsg])

/-- The loop body of `_check_services` over a list of service names: query each
service's status, collect running ones, optionally stopping them. -/
def check_services_go (st : SysState) (kill : Bool) : List String → List String × List SysAction × List String
  | [] => ([], [], [])
  | svc :: rest =>
    let r := check_services_go st kill rest
    if st.statusRc svc = 0 then
      let kr := if kill then stop_service st svc else ([], [])
      (svc :: r.1, SysAction.statusQuery svc :: (kr.1 ++ r.2.1), kr.2 ++ r.2.2)
    else (r.1, SysAction.statusQuery svc :: r.2.1, r.2.2)

/-- `_check_services`. -/
def check_services (st : SysState) (kill : Bool) : List String × List SysAction × List String :=
  check_services_go st kill SERVICES

/-- The loop body of `_check_processes` over the live process list: record one
entry per matching process instance, optionally signalling each one. -/
def check_processes_go (st : SysState) (kill : Bool) : List ProcEntry → List String × List SysAction × List String
  | [] => ([], [], [])
  | p :: rest =>
    let r := check_processes_go st kill rest
    if PROCESSES.contains p.name then
      let kr := if kill then kill_processes st p else ([], [])
      (p.name :: r.1, kr.1 ++ r.2.1, kr.2 ++ r.2.2)
    else (r.1, r.2.1, r.2.2)

/-- `_check_processes`. -/
def check_processes (st : SysState) (kill : Bool) : List String × List SysAction × List String :=
  check_processes_go st kill st.procs

/-- The dataclass returned by `check` / `check_and_kill`. -/
structure CheckResult where
  services : List String
  processes : List String
deriving Repr, DecidableEq

/-- A resolver invocation: its returned value, the external actions it
performed, and the messages it printed. -/
structure ResolverRun where
  result : CheckResult
  actions : List SysAction
  msgs : List String

/-- `ConflictResolver.check()`. -/
def check (st : SysState) : ResolverRun :=
  let s := check_services st false
  let p := check_processes st false
  ⟨⟨s.1, p.1⟩, s.2.1 ++ p.2.1, s.2.2 ++ p.2.2⟩

/-- `ConflictResolver.check_and_kill()`. -/
def check_and_kill (st : SysState) : ResolverRun :=
  let s := check_services st true
  let p := check_processes st true
  ⟨⟨s.1, p.1⟩, s.2.1 ++ p.2.1, s.2.2 ++ p.2.2⟩

/-- The fixed candidate list of `restore()`. -/
def restoreTargets : List String :=
  ["NetworkManager", "avahi-daemon", "wicd", "wpa_supplicant"]

/-- The loop body of `restore()` over the candidate list: query `is-enabled`,
restart only enabled services, keep only the ones whose restart succeeded. -/
def restore_go (st : SysState) : List String → List String × List SysAction × List String
  | [] => ([], [], [])
  | svc :: rest =>
    let r := restore_go st rest
    if st.isEnabledRc svc = 0 then
      let restoringMsg := "[*] Restoring service: " ++ svc ++ "..."
      if st.restartRc svc = 0 then
        (svc :: r.1,
         SysAction.isEnabledQuery svc :: SysAction.restartService svc :: r.2.1,
         restoringMsg :: ("OK") :: r.2.2)
      else
        (r.1,
         SysAction.isEnabledQuery svc :: SysAction.restartService svc :: r.2.1,
         restoringMsg :: ("FAILED") :: r.2.2)
    else (r.1, SysAction.isEnabledQuery svc :: r.2.1, r.2.2)

/-- `ConflictResolver.restore()`: returns the successfully restarted services
plus the trace and printed messages. -/
def restore (st : SysState) : List String × List SysAction × List String :=
  restore_go st restoreTargets

/-! ### Claims C1–C4 -/

/-- The concrete scan text for claim C1: a valid `BSS` record, then a `BSS`
line whose address token fails the MAC pattern, then a trailing field line. -/
def c1FailingInput : String :=
  "BSS 11:22:33:44:55:66\nsignal: -50\nBSS malformed-mac\nsignal: -60"

/-- C1: the claim says a `BSS` line with an invalid address token starts no new
record and every subsequent field line is discarded, neither updating nor
duplicating the prior record — so `c1FailingInput` should parse to a single
record with signal -50.  The code instead leaves `current_net` aliased to the
already-appended dict: the trailing `signal: -60` line overwrites the prior
record in place, and the shared dict is appended a second time, yielding two
identical entries with signal -60. -/
theorem c1_malformed_bss_updates_and_duplicates :
    parse_iw_output c1FailingInput =
      Except.ok [{ newNetwork "11:22:33:44:55:66".data with signalDbm := -60 },
                 { newNetwork "11:22:33:44:55:66".data with signalDbm := -60 }] := by
  rfl

/-- C3: the claim says the parser returns a record sequence for every input and
never raises, explicitly including a line consisting only of the token `BSS`.
The code evaluates `tokens[1]` on such a line before any guard, raising an
uncaught `IndexError`, modelled here as the `Except.error` outcome. -/
theorem c3_parser_raises_on_bare_bss_line :
    parse_iw_output "BSS" = Except.error indexErrMsg := by
  rfl

/-- C2 counterexample: under an environment in which every external command
fails with stderr text, the claimed down→delete→recreate→up protocol — which
requires a delete step whose failure surfaces an error carrying the
diagnostic — does not hold of the code's mode switch: no delete command is
ever issued and no error is raised. -/
theorem c2_counterexample_protocol_missing :
    claimModeSwitchProtocol failingEnv "wlan0" InterfaceMode.monitor = false := by
  rfl

/-- C2 as amended: a mode-switch invocation executes exactly one external
command, `iw <interface> set type <mode>`, performing no down, delete,
recreate or up step; the command's exit status is never inspected, so the
invocation always returns success and no `ModeSwitchError` (or any error)
carrying the command's stderr is ever raised. -/
theorem c2_amended_mode_switch_single_command (env : CmdEnv) (interface : String)
    (mode : InterfaceMode) :
    InterfaceManagement.set_interface_mode env interface mode =
      (Except.ok (), [["iw", interface, "set", "type", mode.toArg]]) := by
  rfl

/-- C4 counterexample: under an environment in which the `ip link set _ up`
command fails, the claim that the failure is surfaced to the caller does not
hold: `up()` still returns success. -/
theorem c4_counterexample_up_failure_swallowed :
    claimUpFailureSurfaced failingEnv "wlan0" = false := by
  rfl

/-- C4 as amended: the plain link-state operations run exactly one external
command, `ip link set <interface> up|down`, discard its result, and always
return success — a command failure is silently swallowed in every up/down
invocation, never propagated to the caller. -/
theorem c4_amended_link_state_swallows_failures (env : CmdEnv) (interface : String) :
    InterfaceManagement.up env interface =
      (Except.ok (), [["ip", "link", "set", interface, "up"]]) ∧
    InterfaceManagement.down env interface =
      (Except.ok (), [["ip", "link", "set", interface, "down"]]) ∧
    (∀ action : InterfaceAction,
      (InterfaceManagement.set_interface_state env interface action).1 = Except.ok ()) := by
  exact ⟨rfl, rfl, fun _ => rfl⟩

/-! ### Lemmas about the stable descending sort -/

theorem mem_sortInsert (x z : Network) (l : List Network) :
    z ∈ sortInsert x l ↔ z = x ∨ z ∈ l := by
  induction l with
  | nil => simp [sortInsert]
  | cons y ys ih =>
    by_cases hc : x.signalDbm < y.signalDbm
    · simp [sortInsert, hc, ih]
      try tauto
    · simp [sortInsert, hc]
      try tauto

theorem pairwise_sortInsert (x : Network) (l : List Network)
    (hp : List.Pairwise (fun a b => b.signalDbm ≤ a.signalDbm) l) :
    List.Pairwise (fun a b => b.signalDbm ≤ a.signalDbm) (sortInsert x l) := by
  induction l with
  | nil => simp [sortInsert]
  | cons y ys ih =>
    rcases List.pairwise_cons.1 hp with ⟨hy, hys⟩
    by_cases hc : x.signalDbm < y.signalDbm
    · rw [sortInsert, if_pos hc]
      refine List.pairwise_cons.2 ⟨?_, ih hys⟩
      intro z hz
      rcases (mem_sortInsert x z ys).1 hz with hzx | hzys
      · exact hzx ▸ le_of_lt hc
      · exact hy z hzys
    · rw [sortInsert, if_neg hc]
      refine List.pairwise_cons.2 ⟨?_, hp⟩
      intro z hz
      rcases List.mem_cons.1 hz with hzy | hzys
      · exact hzy ▸ le_of_not_lt hc
      · exact le_trans (hy z hzys) (le_of_not_lt hc)

theorem pairwise_sortSignalDesc (l : List Network) :
    List.Pairwise (fun a b => b.signalDbm ≤ a.signalDbm) (sortSignalDesc l) := by
  induction l with
  | nil => simp [sortSignalDesc]
  | cons x xs ih => exact pairwise_sortInsert x (sortSignalDesc xs) ih

theorem filter_sortInsert (x : Network) (l : List Network) (v : Rat) :
    (sortInsert x l).filter (fun n => n.signalDbm == v) =
      if x.signalDbm = v then x :: l.filter (fun n => n.signalDbm == v)
      else l.filter (fun n => n.signalDbm == v) := by
  induction l with
  | nil =>
    by_cases hv : x.signalDbm = v <;> simp [sortInsert, hv]
  | cons y ys ih =>
    by_cases hc : x.signalDbm < y.signalDbm
    · rw [sortInsert, if_pos hc]
      by_cases hyv : y.signalDbm = v
      · have hxv : ¬ x.signalDbm = v := by
          intro hxv
          exact absurd hc (by rw [hxv, hyv]; exact lt_irrefl v)
        simp [List.filter_cons, hyv, hxv, ih]
      · by_cases hxv : x.signalDbm = v <;> simp [List.filter_cons, hyv, hxv, ih]
    · rw [sortInsert, if_neg hc]
      by_cases hxv : x.signalDbm = v <;> simp [List.filter_cons, hxv]

theorem filter_sortSignalDesc (l : List Network) (v : Rat) :
    (sortSignalDesc l).filter (fun n => n.signalDbm == v) =
      l.filter (fun n => n.signalDbm == v) := by
  induction l with
  | nil => rfl
  | cons x xs ih =>
    rw [sortSignalDesc, filter_sortInsert]
    by_cases hxv : x.signalDbm = v <;> simp [List.filter_cons, hxv, ih]

theorem length_sortInsert (x : Network) (l : List Network) :
    (sortInsert x l).length = l.length + 1 := by
  induction l with
  | nil => rfl
  | cons y ys ih =>
    by_cases hc : x.signalDbm < y.signalDbm <;> simp [sortInsert, hc, ih]

theorem length_sortSignalDesc (l : List Network) :
    (sortSignalDesc l).length = l.length := by
  induction l with
  | nil => rfl
  | cons x xs ih => simp [sortSignalDesc, length_sortInsert, ih]

theorem map_fst_enumerateFrom (i : Nat) (l : List Network) :
    (enumerateFrom i l).map Prod.fst = List.range' i l.length := by
  induction l generalizing i with
  | nil => rfl
  | cons x xs ih => simp [enumerateFrom, List.range', ih]

theorem map_snd_enumerateFrom (i : Nat) (l : List Network) :
    (enumerateFrom i l).map Prod.snd = l := by
  induction l generalizing i with
  | nil => rfl
  | cons x xs ih => simp [enumerateFrom, ih]

/-- C5: the returned indexed mapping of `get_results` is the stable descending
sort of the registry values by `Signal_dBm` with 1-based indices assigned in
sorted order (ties keep registry iteration order: filtering any signal level
preserves the original order and multiplicity), and the reverse flag flips only
the printed row order — the returned mapping is identical to the non-reversed
one. -/
theorem c5_ranking_stable_and_reverse_is_presentation_only (reg : Registry) :
    (get_results reg true).1 = (get_results reg false).1 ∧
    (get_results reg true).2 = ((get_results reg false).2).reverse ∧
    (get_results reg false).2 = (get_results reg false).1 ∧
    (get_results reg false).1 = enumerateFrom 1 (sortSignalDesc (registryValues reg)) ∧
    ((get_results reg false).1).map Prod.fst = List.range' 1 (registryValues reg).length ∧
    List.Pairwise (fun a b => b.signalDbm ≤ a.signalDbm)
      (((get_results reg false).1).map Prod.snd) ∧
    (∀ v : Rat,
      (((get_results reg false).1).map Prod.snd).filter (fun n => n.signalDbm == v) =
        (registryValues reg).filter (fun n => n.signalDbm == v)) := by
  rcases hval : registryValues reg with _ | ⟨n0, rest⟩
  · simp [get_results, hval, sortSignalDesc, enumerateFrom]
  · have hKey : get_results reg false =
        (enumerateFrom 1 (sortSignalDesc (n0 :: rest)),
         enumerateFrom 1 (sortSignalDesc (n0 :: rest))) := by
      simp [get_results, hval]
    have hKeyT : get_results reg true =
        (enumerateFrom 1 (sortSignalDesc (n0 :: rest)),
         (enumerateFrom 1 (sortSignalDesc (n0 :: rest))).reverse) := by
      simp [get_results, hval]
    refine ⟨?_, ?_, ?_, ?_, ?_, ?_, ?_⟩
    · rw [hKey, hKeyT]
    · rw [hKey, hKeyT]
    · rw [hKey]
    · rw [hKey]
    · rw [hKey]
      simp [map_fst_enumerateFrom, length_sortSignalDesc]
    · rw [hKey, map_snd_enumerateFrom]
      exact pairwise_sortSignalDesc (n0 :: rest)
    · intro v
      rw [hKey]
      simp [map_snd_enumerateFrom, filter_sortSignalDesc]

/-! ### Lemmas about the registry merge -/

theorem any_key_iff_mem (reg : Registry) (k : String) :
    reg.any (fun p => p.1 == k) = true ↔ k ∈ registryKeys reg := by
  simp [registryKeys]

theorem keys_dictInsert (reg : Registry) (k : String) (v : Network) :
    registryKeys (dictInsert reg k v) =
      if reg.any (fun p => p.1 == k) = true then registryKeys reg
      else registryKeys reg ++ [k] := by
  by_cases h : reg.any (fun p => p.1 == k) = true
  · rw [if_pos h]
    unfold dictInsert
    rw [if_pos h]
    unfold registryKeys
    rw [List.map_map]
    apply List.map_congr_left
    intro p _
    by_cases hp : (p.1 == k) = true
    · have hpk : p.1 = k := by simpa using hp
      simp [Function.comp, hp, hpk]
    · simp [Function.comp, hp]
  · rw [if_neg h]
    unfold dictInsert
    rw [if_neg h]
    unfold registryKeys
    simp

theorem nodup_keys_dictInsert (reg : Registry) (k : String) (v : Network)
    (h : (registryKeys reg).Nodup) : (registryKeys (dictInsert reg k v)).Nodup := by
  rw [keys_dictInsert]
  by_cases hany : reg.any (fun p => p.1 == k) = true
  · rw [if_pos hany]
    exact h
  · rw [if_neg hany]
    have hk : k ∉ registryKeys reg := fun hm => hany ((any_key_iff_mem reg k).2 hm)
    simp [List.nodup_append, h, hk]

theorem nodup_keys_mergeScan (nets : List Network) :
    ∀ reg : Registry, (registryKeys reg).Nodup → (registryKeys (mergeScan reg nets)).Nodup := by
  induction nets with
  | nil => intro reg h; exact h
  | cons n rest ih =>
    intro reg h
    exact ih (dictInsert reg n.bssid n) (nodup_keys_dictInsert reg n.bssid n h)

theorem find?_map_dictInsert_self (k : String) (v : Network) (reg : Registry)
    (h : reg.any (fun p => p.1 == k) = true) :
    (reg.map (fun p => if p.1 == k then (k, v) else p)).find? (fun p => p.1 == k) =
      some (k, v) := by
  induction reg with
  | nil => simp at h
  | cons p rest ih =>
    by_cases hp : (p.1 == k) = true
    · simp only [List.map_cons, if_pos hp]
      apply List.find?_cons_of_pos
      simp
    · have h' : rest.any (fun q => q.1 == k) = true := by
        simpa [List.any_cons, hp] using h
      simp only [List.map_cons, if_neg hp]
      rw [@List.find?_cons_of_neg _ (fun q => q.1 == k) p _ hp]
      exact ih h'

theorem find?_map_dictInsert_other (k k' : String) (v : Network) (reg : Registry)
    (hne : k' ≠ k) :
    (reg.map (fun p => if p.1 == k then (k, v) else p)).find? (fun p => p.1 == k') =
      reg.find? (fun p => p.1 == k') := by
  induction reg with
  | nil => rfl
  | cons p rest ih =>
    by_cases hp : (p.1 == k) = true
    · have hpk : p.1 = k := by simpa using hp
      have hkv : ¬((k, v).1 == k') = true := by
        simp
        exact fun hc => hne hc.symm
      have hpne : ¬(p.1 == k') = true := by
        rw [hpk]
        simpa using hkv
      simp only [List.map_cons, if_pos hp]
      rw [@List.find?_cons_of_neg _ (fun q => q.1 == k') (k, v) _ hkv,
        @List.find?_cons_of_neg _ (fun q => q.1 == k') p _ hpne]
      exact ih
    · simp only [List.map_cons, if_neg hp]
      by_cases hk' : (p.1 == k') = true
      · rw [@List.find?_cons_of_pos _ (fun q => q.1 == k') p _ hk',
          @List.find?_cons_of_pos _ (fun q => q.1 == k') p _ hk']
      · rw [@List.find?_cons_of_neg _ (fun q => q.1 == k') p _ hk',
          @List.find?_cons_of_neg _ (fun q => q.1 == k') p _ hk']
        exact ih

theorem lookup_dictInsert (reg : Registry) (k k' : String) (v : Network) :
    registryLookup (dictInsert reg k v) k' =
      if k' = k then some v else registryLookup reg k' := by
  by_cases hany : reg.any (fun p => p.1 == k) = true
  · unfold dictInsert
    rw [if_pos hany]
    by_cases hk : k' = k
    · subst hk
      unfold registryLookup
      rw [find?_map_dictInsert_self k' v reg hany]
      simp
    · unfold registryLookup
      rw [find?_map_dictInsert_other k k' v reg hk, if_neg hk]
  · unfold dictInsert
    rw [if_neg hany]
    have hfind : reg.find? (fun p => p.1 == k) = none := by
      rw [List.find?_eq_none]
      intro p hp hcontra
      exact hany (List.any_eq_true.2 ⟨p, hp, hcontra⟩)
    by_cases hk : k' = k
    · subst hk
      unfold registryLookup
      rw [List.find?_append, hfind]
      simp
    · unfold registryLookup
      rw [List.find?_append]
      have hkk : ¬((k, v).1 == k') = true := by
        simp
        exact fun hc => hk hc.symm
      rw [@List.find?_cons_of_neg _ (fun q => q.1 == k') (k, v) _ hkk]
      simp [hk]

theorem lookup_mergeScan (nets : List Network) :
    ∀ (reg : Registry) (b : String),
      registryLookup (mergeScan reg nets) b =
        match lastRecord nets b with
        | some r => some r
        | none => registryLookup reg b := by
  induction nets with
  | nil => intro reg b; rfl
  | cons n rest ih =>
    intro reg b
    have step : mergeScan reg (n :: rest) = mergeScan (dictInsert reg n.bssid n) rest := rfl
    rw [step, ih]
    cases hlast : lastRecord rest b with
    | some r => simp [lastRecord, hlast]
    | none =>
      rw [lookup_dictInsert]
      by_cases hb : b = n.bssid
      · subst hb
        simp [lastRecord, hlast]
      · have hb' : ¬ n.bssid = b := fun hc => hb hc.symm
        simp [lastRecord, hlast, hb, hb']

theorem mem_keys_mergeScan (nets : List Network) :
    ∀ (reg : Registry) (b : String), b ∈ registryKeys reg → b ∈ registryKeys (mergeScan reg nets) := by
  induction nets with
  | nil => intro reg b h; exact h
  | cons n rest ih =>
    intro reg b h
    apply ih
    rw [keys_dictInsert]
    by_cases hany : reg.any (fun p => p.1 == n.bssid) = true
    · rw [if_pos hany]; exact h
    · rw [if_neg hany]; exact List.mem_append_left _ h

/-- C6: the registry keeps at most one record per BSSID (key uniqueness is
preserved by every merge of parser output), a merge makes the last record of
the scan carrying a BSSID the registry's record for it (last-write-wins, the
whole record replaced), no existing key is ever removed by a merge, and after
two successive scans the registry holds the second scan's record for any BSSID
the second scan observed. -/
theorem c6_registry_unique_last_write_wins (reg : Registry) (s1 s2 : List Network) (b : String) :
    ((registryKeys reg).Nodup → (registryKeys (mergeScan reg s1)).Nodup) ∧
    (registryLookup (mergeScan reg s1) b =
      match lastRecord s1 b with
      | some r => some r
      | none => registryLookup reg b) ∧
    (b ∈ registryKeys reg → b ∈ registryKeys (mergeScan reg s1)) ∧
    (registryLookup (mergeScan (mergeScan reg s1) s2) b =
      match lastRecord s2 b with
      | some r => some r
      | none =>
        match lastRecord s1 b with
        | some r => some r
        | none => registryLookup reg b) := by
  refine ⟨fun h => nodup_keys_mergeScan s1 reg h,
    lookup_mergeScan s1 reg b,
    fun h => mem_keys_mergeScan s1 reg b h, ?_⟩
  rw [lookup_mergeScan s2, lookup_mergeScan s1]

def c6n0 : Network := newNetwork "AA:BB:CC:DD:EE:FF".data

def c6n1 : Network := { newNetwork "11:22:33:44:55:66".data with signalDbm := -40 }

def c6n2 : Network := { newNetwork "11:22:33:44:55:66".data with signalDbm := -70 }

def c6reg : Registry := [(c6n0.bssid, c6n0)]

/-- Witness for C6 at a concrete registry and scans, discharging both
hypotheses of the theorem. -/
theorem c6_registry_unique_last_write_wins_witness :
    (registryKeys (mergeScan c6reg [c6n1])).Nodup ∧
    "AA:BB:CC:DD:EE:FF" ∈ registryKeys (mergeScan c6reg [c6n1]) := by
  have T := c6_registry_unique_last_write_wins c6reg [c6n1] [c6n2] "AA:BB:CC:DD:EE:FF"
  exact ⟨T.1 (by decide), T.2.2.1 (by decide)⟩

/-! ### Lemmas about the conflict resolver -/

/-- Service names targeted by `systemctl stop` actions in a trace. -/
def stopsOf (acts : List SysAction) : List String :=
  acts.filterMap (fun a =>
    match a with
    | SysAction.stopService s => some s
    | _ => none)

/-- Pids targeted by termination signals in a trace. -/
def sigSendsOf (acts : List SysAction) : List Nat :=
  acts.filterMap (fun a =>
    match a with
    | SysAction.sigSend pid => some pid
    | _ => none)

/-- Service names targeted by `systemctl restart` actions in a trace. -/
def restartsOf (acts : List SysAction) : List String :=
  acts.filterMap (fun a =>
    match a with
    | SysAction.restartService s => some s
    | _ => none)

/-- Service names targeted by `systemctl is-enabled` queries in a trace. -/
def enabledQueriesOf (acts : List SysAction) : List String :=
  acts.filterMap (fun a =>
    match a with
    | SysAction.isEnabledQuery s => some s
    | _ => none)

theorem check_services_go_found (st : SysState) (kill : Bool) (svcs : List String) :
    (check_services_go st kill svcs).1 = svcs.filter (fun s => decide (st.statusRc s = 0)) := by
  induction svcs with
  | nil => rfl
  | cons s rest ih =>
    by_cases h : st.statusRc s = 0 <;> simp [check_services_go, h, ih]

theorem check_services_go_actions_false (st : SysState) (svcs : List String) :
    (check_services_go st false svcs).2.1 = svcs.map SysAction.statusQuery := by
  induction svcs with
  | nil => rfl
  | cons s rest ih =>
    by_cases h : st.statusRc s = 0 <;> simp [check_services_go, h, ih]

theorem check_services_go_msgs_false (st : SysState) (svcs : List String) :
    (check_services_go st false svcs).2.2 = [] := by
  induction svcs with
  | nil => rfl
  | cons s rest ih =>
    by_cases h : st.statusRc s = 0 <;> simp [check_services_go, h, ih]

theorem stop_service_actions (st : SysState) (svc : String) :
    (stop_service st svc).1 = [SysAction.stopService svc] := by
  by_cases h : st.stopRc svc = 0 <;> simp [stop_service, h]

theorem check_services_go_stops_true (st : SysState) (svcs : List String) :
    stopsOf (check_services_go st true svcs).2.1 =
      svcs.filter (fun s => decide (st.statusRc s = 0)) := by
  induction svcs with
  | nil => rfl
  | cons s rest ih =>
    by_cases h : st.statusRc s = 0 <;>
      simp [check_services_go, h, ih, stopsOf, stop_service_actions, List.filterMap_append,
        stopsOf.eq_def] <;>
      simp [stopsOf] at ih <;>
      simpa [stop_service_actions] using ih

theorem check_services_go_sigs (st : SysState) (kill : Bool) (svcs : List String) :
    sigSendsOf (check_services_go st kill svcs).2.1 = [] := by
  induction svcs with
  | nil => rfl
  | cons s rest ih =>
    by_cases h : st.statusRc s = 0
    · cases kill <;>
        simp [check_services_go, h, sigSendsOf, List.filterMap_append,
          stop_service_actions] <;>
        simpa [sigSendsOf] using ih
    · simp [check_services_go, h]
      simpa [sigSendsOf] using ih

theorem kill_processes_actions (st : SysState) (p : ProcEntry) :
    (kill_processes st p).1 = [SysAction.sigSend p.pid] := by
  cases h : st.killOutcome p.pid <;> simp [kill_processes, h]

theorem kill_processes_msgs (st : SysState) (p : ProcEntry) :
    (kill_processes st p).2 =
      if st.killOutcome p.pid = KillOutcome.accessDenied then [deniedMsg] else [] := by
  cases h : st.killOutcome p.pid <;> simp [kill_processes, h]

theorem check_processes_go_found (st : SysState) (kill : Bool) (procs : List ProcEntry) :
    (check_processes_go st kill procs).1 =
      (procs.filter (fun p => PROCESSES.contains p.name)).map (fun p => p.name) := by
  induction procs with
  | nil => rfl
  | cons p rest ih =>
    by_cases h : p.name ∈ PROCESSES <;> simp [check_processes_go, h, ih]

theorem check_processes_go_actions_false (st : SysState) (procs : List ProcEntry) :
    (check_processes_go st false procs).2.1 = [] := by
  induction procs with
  | nil => rfl
  | cons p rest ih =>
    by_cases h : p.name ∈ PROCESSES <;> simp [check_processes_go, h, ih]

theorem check_processes_go_msgs_false (st : SysState) (procs : List ProcEntry) :
    (check_processes_go st false procs).2.2 = [] := by
  induction procs with
  | nil => rfl
  | cons p rest ih =>
    by_cases h : p.name ∈ PROCESSES <;> simp [check_processes_go, h, ih]

theorem check_processes_go_actions_true (st : SysState) (procs : List ProcEntry) :
    (check_processes_go st true procs).2.1 =
      (procs.filter (fun p => PROCESSES.contains p.name)).map
        (fun p => SysAction.sigSend p.pid) := by
  induction procs with
  | nil => rfl
  | cons p rest ih =>
    by_cases h : p.name ∈ PROCESSES <;>
      simp [check_processes_go, h, ih, kill_processes_actions]

theorem check_processes_go_msgs_true (st : SysState) (procs : List ProcEntry) :
    (check_processes_go st true procs).2.2 =
      (procs.filter (fun p =>
        PROCESSES.contains p.name &&
          decide (st.killOutcome p.pid = KillOutcome.accessDenied))).map
        (fun _ => deniedMsg) := by
  induction procs with
  | nil => rfl
  | cons p rest ih =>
    by_cases h : p.name ∈ PROCESSES
    · by_cases hd : st.killOutcome p.pid = KillOutcome.accessDenied <;>
        simp [check_processes_go, h, hd, ih, kill_processes_msgs, List.filter_cons]
    · simp [check_processes_go, h, ih, List.filter_cons]

theorem restore_go_found (st : SysState) (ts : List String) :
    (restore_go st ts).1 =
      ts.filter (fun s => decide (st.isEnabledRc s = 0) && decide (st.restartRc s = 0)) := by
  induction ts with
  | nil => rfl
  | cons s rest ih =>
    by_cases he : st.isEnabledRc s = 0
    · by_cases hr : st.restartRc s = 0 <;> simp [restore_go, he, hr, ih]
    · simp [restore_go, he, ih]

theorem restore_go_restarts (st : SysState) (ts : List String) :
    restartsOf (restore_go st ts).2.1 =
      ts.filter (fun s => decide (st.isEnabledRc s = 0)) := by
  induction ts with
  | nil => rfl
  | cons s rest ih =>
    by_cases he : st.isEnabledRc s = 0
    · by_cases hr : st.restartRc s = 0 <;> simp [restore_go, he, hr, restartsOf] <;>
        simpa [restartsOf] using ih
    · simp [restore_go, he, restartsOf]
      simpa [restartsOf] using ih

theorem restore_go_enabled_queries (st : SysState) (ts : List String) :
    enabledQueriesOf (restore_go st ts).2.1 = ts := by
  induction ts with
  | nil => rfl
  | cons s rest ih =>
    by_cases he : st.isEnabledRc s = 0
    · by_cases hr : st.restartRc s = 0 <;> simp [restore_go, he, hr, enabledQueriesOf] <;>
        simpa [enabledQueriesOf] using ih
    · simp [restore_go, he, enabledQueriesOf]
      simpa [enabledQueriesOf] using ih

theorem sigSendsOf_map_sigSend (l : List ProcEntry) :
    sigSendsOf (l.map (fun p => SysAction.sigSend p.pid)) = l.map (fun p => p.pid) := by
  induction l with
  | nil => rfl
  | cons p rest ih =>
    simp only [List.map_cons, sigSendsOf, List.filterMap_cons]
    simpa [sigSendsOf] using ih

theorem stopsOf_map_sigSend (l : List ProcEntry) :
    stopsOf (l.map (fun p => SysAction.sigSend p.pid)) = [] := by
  induction l with
  | nil => rfl
  | cons p rest ih =>
    simp only [List.map_cons, stopsOf, List.filterMap_cons]
    simp [stopsOf] at ih
    simp [ih]

/-- C7: `check()` performs status queries only — its external-action trace is
exactly one status query per configured service, with no service stop and no
termination signal — while `check_and_kill()` is the variant that does stop
every detected service and signal every matched process. -/
theorem c7_check_is_read_only (st : SysState) :
    (check st).actions = SERVICES.map SysAction.statusQuery ∧
    stopsOf (check st).actions = [] ∧
    sigSendsOf (check st).actions = [] ∧
    stopsOf (check_and_kill st).actions =
      SERVICES.filter (fun s => decide (st.statusRc s = 0)) ∧
    sigSendsOf (check_and_kill st).actions =
      (st.procs.filter (fun p => PROCESSES.contains p.name)).map (fun p => p.pid) := by
  have hactions : (check st).actions = SERVICES.map SysAction.statusQuery := by
    show (check_services_go st false SERVICES).2.1 ++
        (check_processes_go st false st.procs).2.1 = _
    rw [check_services_go_actions_false, check_processes_go_actions_false]
    simp
  refine ⟨hactions, ?_, ?_, ?_, ?_⟩
  · rw [hactions]
    simp [stopsOf, List.filterMap_map]
  · rw [hactions]
    simp [sigSendsOf, List.filterMap_map]
  · show stopsOf ((check_services_go st true SERVICES).2.1 ++
        (check_processes_go st true st.procs).2.1) = _
    rw [stopsOf, List.filterMap_append, check_processes_go_actions_true]
    have h1 := check_services_go_stops_true st SERVICES
    rw [stopsOf] at h1
    rw [h1]
    have h2 := stopsOf_map_sigSend (st.procs.filter (fun p => PROCESSES.contains p.name))
    rw [stopsOf] at h2
    rw [h2]
    simp
  · show sigSendsOf ((check_services_go st true SERVICES).2.1 ++
        (check_processes_go st true st.procs).2.1) = _
    rw [sigSendsOf, List.filterMap_append, check_processes_go_actions_true]
    have h1 := check_services_go_sigs st true SERVICES
    rw [sigSendsOf] at h1
    rw [h1]
    have h2 := sigSendsOf_map_sigSend (st.procs.filter (fun p => PROCESSES.contains p.name))
    rw [sigSendsOf] at h2
    rw [h2]
    simp

/-- C8: during `check_and_kill` the two termination failure modes are
non-fatal: regardless of each target's `send_signal` outcome, every matched
process instance is still signalled exactly once and still appears in the
returned result, and the printed messages are exactly one advisory line per
`AccessDenied` target (an already-exited target produces nothing), on top of
the service-phase messages. -/
theorem c8_kill_failure_modes_nonfatal (st : SysState) :
    (check_and_kill st).result.processes =
      (st.procs.filter (fun p => PROCESSES.contains p.name)).map (fun p => p.name) ∧
    (check_and_kill st).actions =
      (check_services st true).2.1 ++
        (st.procs.filter (fun p => PROCESSES.contains p.name)).map
          (fun p => SysAction.sigSend p.pid) ∧
    (check_and_kill st).msgs =
      (check_services st true).2.2 ++
        (st.procs.filter (fun p =>
          PROCESSES.contains p.name &&
            decide (st.killOutcome p.pid = KillOutcome.accessDenied))).map
          (fun _ => deniedMsg) := by
  refine ⟨?_, ?_, ?_⟩
  · exact check_processes_go_found st true st.procs
  · show (check_services_go st true SERVICES).2.1 ++
        (check_processes_go st true st.procs).2.1 = _
    rw [check_processes_go_actions_true]
    rfl
  · show (check_services_go st true SERVICES).2.2 ++
        (check_processes_go st true st.procs).2.2 = _
    rw [check_processes_go_msgs_true]
    rfl

/-- C9: `restore()` queries `is-enabled` for every candidate in the fixed
list, attempts a restart exactly for those whose is-enabled query succeeded,
and — each restart failure being non-fatal — returns exactly the candidates
whose restart command succeeded, failures silently omitted. -/
theorem c9_restore_best_effort (st : SysState) :
    (restore st).1 =
      restoreTargets.filter
        (fun s => decide (st.isEnabledRc s = 0) && decide (st.restartRc s = 0)) ∧
    restartsOf (restore st).2.1 =
      restoreTargets.filter (fun s => decide (st.isEnabledRc s = 0)) ∧
    enabledQueriesOf (restore st).2.1 = restoreTargets := by
  exact ⟨restore_go_found st restoreTargets, restore_go_restarts st restoreTargets,
    restore_go_enabled_queries st restoreTargets⟩

theorem count_matched_names (procs : List ProcEntry) (nm : String) :
    (((procs.filter (fun p => PROCESSES.contains p.name)).map (fun p => p.name)).count nm) =
      (procs.filter (fun p => p.name == nm && PROCESSES.contains p.name)).length := by
  induction procs with
  | nil => rfl
  | cons p rest ih =>
    simp only [List.elem_eq_mem] at ih ⊢
    by_cases h : p.name ∈ PROCESSES
    · by_cases hn : p.name = nm
      · have hnm : nm ∈ PROCESSES := hn ▸ h
        simp [List.filter_cons, h, hn, hnm, List.count_cons, ih]
      · simp [List.filter_cons, h, hn, List.count_cons, ih]
    · simp [List.filter_cons, h, ih]

/-- C10: the `processes` field of both `check()` and `check_and_kill()` holds
one entry per matched live process instance — a name shared by several running
processes appears once per instance — the `services` field holds each detected
service name at most once, and when killing, each matched instance is
individually signalled. -/
theorem c10_per_instance_processes_unique_services (st : SysState) :
    (check st).result.processes =
      (st.procs.filter (fun p => PROCESSES.contains p.name)).map (fun p => p.name) ∧
    (∀ nm : String, ((check st).result.processes).count nm =
      (st.procs.filter (fun p => p.name == nm && PROCESSES.contains p.name)).length) ∧
    (check st).result.services.Nodup ∧
    (check_and_kill st).result.services.Nodup ∧
    (check_and_kill st).result.processes =
      (st.procs.filter (fun p => PROCESSES.contains p.name)).map (fun p => p.name) ∧
    sigSendsOf (check_and_kill st).actions =
      (st.procs.filter (fun p => PROCESSES.contains p.name)).map (fun p => p.pid) := by
  have hserv : ∀ kb : Bool, (check_services_go st kb SERVICES).1.Nodup := by
    intro kb
    rw [check_services_go_found]
    exact List.Nodup.filter _ (by decide)
  refine ⟨check_processes_go_found st false st.procs, ?_, hserv false, hserv true,
    check_processes_go_found st true st.procs, ?_⟩
  · intro nm
    show (((check_processes_go st false st.procs)).1).count nm = _
    rw [check_processes_go_found]
    exact count_matched_names st.procs nm
  · show sigSendsOf ((check_services_go st true SERVICES).2.1 ++
        (check_processes_go st true st.procs).2.1) = _
    rw [sigSendsOf, List.filterMap_append, check_processes_go_actions_true]
    have h1 := check_services_go_sigs st true SERVICES
    rw [sigSendsOf] at h1
    rw [h1]
    have h2 := sigSendsOf_map_sigSend (st.procs.filter (fun p => PROCESSES.contains p.name))
    rw [sigSendsOf] at h2
    rw [h2]
    simp
